import Mathlib

/-!
Verification of the ValetPe return-policy analyzer against its specification.

The development shallowly embeds the Policy Text Resolver (`extractPolicyText`
in the scraping API route), the URL-normalization step of its surrounding
handler, and the summarization endpoint (fallback substitution and
LLM-output sanitization).  HTML fetching/parsing and WHATWG URL resolution
are the source's external dependencies (node `fetch` + cheerio + `URL`);
they are modelled at the dependency boundary: a fetched document is a value
carrying its anchor elements and its body text nodes, and the URL parser is
a small model covering http/https URLs.  String operations used by the
source (`toLowerCase`, `includes`, `startsWith`, `trim`,
`replace(/\s+/g, " ")`, `slice(0, n)`) are embedded as executable character
list functions restricted to ASCII whitespace.
-/

namespace ValetPe

/-- Whitespace test modelling the JS regex class `\s` on the ASCII range
(space, tab, line feed, carriage return, vertical tab, form feed). -/
def isWsChar (c : Char) : Bool :=
  c = ' ' || c = '\t' || c = '\n' || c = '\r' || c = '\x0b' || c = '\x0c'

/-- Worker for `collapseWs`: replaces every maximal run of whitespace
characters by a single space, tracking whether the previous character
belonged to a whitespace run. -/
def collapseGo : Bool → List Char → List Char
  | _, [] => []
  | prevWs, c :: cs =>
    if isWsChar c then
      if prevWs then collapseGo true cs
      else ' ' :: collapseGo true cs
    else c :: collapseGo false cs

/-- Model of the source's `.replace(/\s+/g, " ")`. -/
def collapseWs (s : String) : String :=
  String.mk (collapseGo false s.data)

/-- Model of the JS `String.prototype.trim` on character lists. -/
def jsTrimL (l : List Char) : List Char :=
  ((l.dropWhile isWsChar).reverse.dropWhile isWsChar).reverse

/-- Model of the JS `String.prototype.trim`. -/
def jsTrim (s : String) : String :=
  String.mk (jsTrimL s.data)

/-- Model of the JS `String.prototype.slice(0, n)`. -/
def jsSlice (n : Nat) (s : String) : String :=
  String.mk (s.data.take n)

/-- The source's text-normalization pipeline
`.replace(/\s+/g, " ").trim()` (truncation is applied separately,
as in the source). -/
def cleanText (s : String) : String :=
  jsTrim (collapseWs s)

/-- Character-list prefix test. -/
def hasPrefixL : List Char → List Char → Bool
  | [], _ => true
  | _ :: _, [] => false
  | a :: as, b :: bs => a = b && hasPrefixL as bs

/-- Character-list infix test: does `needle` occur contiguously in the
second list? -/
def hasInfixL (needle : List Char) : List Char → Bool
  | [] => hasPrefixL needle []
  | c :: t => hasPrefixL needle (c :: t) || hasInfixL needle t

/-- Model of the JS `s.startsWith(pre)`. -/
def strStartsWith (s pre : String) : Bool :=
  hasPrefixL pre.data s.data

/-- Model of the JS `s.includes(sub)`. -/
def strIncludes (s sub : String) : Bool :=
  hasInfixL sub.data s.data

/-- Model of the JS `s.toLowerCase()` (ASCII case folding). -/
def jsToLower (s : String) : String :=
  String.mk (s.data.map Char.toLower)

/-- Parsed URL: scheme, host, path.  Model of the WHATWG `URL` object
restricted to what the source reads (`origin`, `hostname`). -/
structure Url where
  scheme : String
  host : String
  path : String
deriving Repr, DecidableEq

/-- Splits `rest` (everything after `scheme://`) into host and path. -/
def parseHostPath (scheme rest : String) : Option Url :=
  let host := String.mk (rest.data.takeWhile (fun c => !(c = '/')))
  let path := String.mk (rest.data.dropWhile (fun c => !(c = '/')))
  if host = "" then none else some ⟨scheme, host, path⟩

/-- Model of `new URL(s)` for absolute http/https URLs; `none` models the
constructor throwing on a non-http(s) or host-less input. -/
def parseUrl (s : String) : Option Url :=
  if strStartsWith s "https://" then parseHostPath "https" (String.mk (s.data.drop 8))
  else if strStartsWith s "http://" then parseHostPath "http" (String.mk (s.data.drop 7))
  else none

/-- Model of `urlObj.origin`. -/
def origin (u : Url) : String :=
  u.scheme ++ "://" ++ u.host

/-- Model of `new URL(href, base).toString()`: absolute hrefs are kept,
root-relative hrefs are resolved against the origin, other hrefs are
treated as path segments under the origin; `none` models the constructor
throwing on a malformed absolute href. -/
def resolveUrl (href base : String) : Option String :=
  if href = "http://" || href = "https://" then none
  else if strStartsWith href "http://" || strStartsWith href "https://" then some href
  else if strStartsWith href "/" then some (base ++ href)
  else some (base ++ "/" ++ href)

/-- Kind of a text node of a fetched document, as far as the source cares:
either it sits under a `script`, `style`, or `noscript` element (these are
removed before text extraction) or it is ordinary content. -/
inductive NodeKind where
  | script
  | style
  | noscript
  | content
deriving Repr, DecidableEq, BEq

/-- An anchor element as the source reads it: visible text and href. -/
structure Anchor where
  text : String
  href : String
deriving Repr, DecidableEq

/-- A fetched, parsed document at the cheerio dependency boundary:
the anchor elements iterated by `$("a").each` and the body text nodes
tagged by whether they sit under script/style/noscript. -/
structure Html where
  anchors : List Anchor
  nodes : List (NodeKind × String)
deriving Repr

/-- Body text after `$("script, style, noscript").remove()` followed by
`$("body").text()`: the concatenation of the content text nodes. -/
def strippedBody (h : Html) : String :=
  String.join ((h.nodes.filter (fun p => p.1 == NodeKind.content)).map (fun p => p.2))

/-- The source's keyword list. -/
def KEYWORDS : List String :=
  ["return", "refund", "exchange", "cancellation"]

/-- One iteration of the anchor scan: lowercase the anchor's text and href,
concatenate them, and if any keyword occurs, resolve the href against the
origin (`none` when the keyword test fails or URL resolution throws). -/
def anchorCandidate (base : String) (a : Anchor) : Option String :=
  let t := jsToLower a.text
  let h := jsToLower a.href
  let combined := t ++ " " ++ h
  if KEYWORDS.any (fun k => strIncludes combined k) then resolveUrl h base
  else none

/-- The candidate-accumulation loop: push each resolved candidate unless it
is already present (`candidates.includes(abs)`). -/
def collectGo (base : String) (acc : List String) : List Anchor → List String
  | [] => acc
  | a :: rest =>
    match anchorCandidate base a with
    | some abs =>
      if abs ∈ acc then collectGo base acc rest
      else collectGo base (acc ++ [abs]) rest
    | none => collectGo base acc rest

/-- The candidate list built by the anchor scan of `extractPolicyText`. -/
def collectCandidates (base : String) (anchors : List Anchor) : List String :=
  collectGo base [] anchors

/-- The candidate loop of `extractPolicyText`: fetch each candidate in
order, clean its body text, and return the first cleaned text of positive
length; fetch failures skip to the next candidate. -/
def tryCandidates (fetch : String → Option Html) : List String → Option String
  | [] => none
  | c :: rest =>
    match fetch c with
    | none => tryCandidates fetch rest
    | some page =>
      if 0 < (cleanText (strippedBody page)).length then some (cleanText (strippedBody page))
      else tryCandidates fetch rest

/-- The Resolver's result record `{ text, domain }`. -/
structure ExtractResult where
  text : String
  domain : String
deriving Repr, DecidableEq

/-- Shallow embedding of `extractPolicyText` from the scraping API route.
`fetch` models `fetchHtml` composed with `cheerio.load`; it returns `none`
on a network error or non-2xx status (the source's `fetchHtml` throws and
each call site catches).  The outer `none` models the `new URL(productUrl)`
constructor throwing, which the source does not catch. -/
def extractPolicyText (fetch : String → Option Html) (productUrl : String) :
    Option ExtractResult :=
  match parseUrl productUrl with
  | none => none
  | some u =>
    match fetch productUrl with
    | none => some ⟨"", u.host⟩
    | some page =>
      if (collectCandidates (origin u) page.anchors).length = 0 then
        some ⟨jsSlice 24000 (cleanText (strippedBody page)), u.host⟩
      else
        match tryCandidates fetch (collectCandidates (origin u) page.anchors) with
        | some txt => some ⟨jsSlice 24000 txt, u.host⟩
        | none =>
          match fetch productUrl with
          | none => some ⟨"", u.host⟩
          | some page2 => some ⟨jsSlice 24000 (cleanText (strippedBody page2)), u.host⟩

/-- The handler's URL normalization: trim, then prepend `https://` unless
the string already starts with an explicit scheme. -/
def normalizeUrl (raw : String) : String :=
  if !(strStartsWith (jsTrim raw) "http://") && !(strStartsWith (jsTrim raw) "https://") then
    "https://" ++ jsTrim raw
  else jsTrim raw

/-- JSON value, modelling whatever `JSON.parse` can yield from the language
model's reply (numbers restricted to integers, which is all the claims
need). -/
inductive Json where
  | null
  | bool (b : Bool)
  | num (n : Int)
  | str (s : String)
  | arr (elems : List Json)
  | obj (fields : List (String × Json))
deriving Repr

/-- Model of the JS property access `parsed.k` on a parsed JSON value:
missing keys and non-object receivers yield `undefined`, collapsed here
onto `null` (the two are indistinguishable to the truthiness tests and
strict string comparisons the source performs). -/
def jGet (j : Json) (k : String) : Json :=
  match j with
  | .obj fields => (((fields.find? (fun kv => kv.1 == k)).map (fun kv => kv.2)).getD .null)
  | _ => .null

/-- JS truthiness of a JSON value. -/
def truthy : Json → Bool
  | .null => false
  | .bool b => b
  | .num n => n != 0
  | .str s => s != ""
  | .arr _ => true
  | .obj _ => true

/-- Model of the JS `a || b` on JSON values. -/
def jsOr (a b : Json) : Json :=
  if truthy a then a else b

/-- Lifts the optional request field `domain` into a JSON value
(`undefined` collapsed onto `null`, see `jGet`). -/
def optJson : Option String → Json
  | some s => .str s
  | none => .null

/-- Model of the JS `o || d` for an optional string request field. -/
def jsOrDefault (o : Option String) (d : String) : String :=
  match o with
  | some s => if s = "" then d else s
  | none => d

/-- The summarization endpoint's response shape.  Fields hold JSON values
because the source copies truthy parsed values through unchanged. -/
structure SummaryResponse where
  brand : Json
  category : Json
  returnWindow : Json
  refundType : Json
  returnMethod : Json
  costs : Json
  conditions : Json
  riskScore : Json
  riskLevel : Json
  benchmark : Json
  tip : Json
deriving Repr

/-- The default `conditions` array of the summarization endpoint. -/
def defaultConditions : Json :=
  .arr [.str "Details not clearly mentioned in policy."]

/-- Shallow embedding of the response-building block of the summarization
endpoint (the `const response = { ... }` object literal): each field takes
the parsed value when truthy and a fixed default otherwise; `conditions`
keeps at most three elements of a non-empty parsed array; `riskLevel` is
kept only when strictly equal to one of the three level strings. -/
def buildResponse (parsed : Json) (domain : Option String) : SummaryResponse where
  brand := jsOr (jGet parsed "brand") (jsOr (optJson domain) (.str "Unknown"))
  category := jsOr (jGet parsed "category") (.str "Other")
  returnWindow := jsOr (jGet parsed "returnWindow") (.str "Not mentioned")
  refundType := jsOr (jGet parsed "refundType") (.str "Not mentioned")
  returnMethod := jsOr (jGet parsed "returnMethod") (.str "Not mentioned")
  costs := jsOr (jGet parsed "costs") (.str "Not mentioned")
  conditions :=
    match jGet parsed "conditions" with
    | .arr xs => if 0 < xs.length then .arr (xs.take 3) else defaultConditions
    | _ => defaultConditions
  riskScore := jsOr (jGet parsed "riskScore") (.str "5/10 – 🟡 Okay, but read conditions")
  riskLevel :=
    match jGet parsed "riskLevel" with
    | .str s => if s = "green" ∨ s = "yellow" ∨ s = "red" then .str s else .str "yellow"
    | _ => .str "yellow"
  benchmark :=
    jsOr (jGet parsed "benchmark")
      (.str "Roughly in line with what Indian shoppers usually see for this category.")
  tip := jsOr (jGet parsed "tip") (.str "Keep tags/packaging until you decide to keep the product.")

/-- The summarization endpoint's canned low-confidence answer
(`fallbackResponse(domain)` in the source; `brand: domain || "Unknown"`). -/
def fallbackResponse (domain : String) : SummaryResponse where
  brand := .str (if domain = "" then "Unknown" else domain)
  category := .str "Other"
  returnWindow := .str "Not mentioned"
  refundType := .str "Not mentioned"
  returnMethod := .str "Not mentioned"
  costs := .str "Not mentioned"
  conditions := .arr [.str "No clear return/refund policy could be analyzed for this site."]
  riskScore := .str "2/10 – 🔴 High risk"
  riskLevel := .str "red"
  benchmark := .str "Lack of a clear, visible policy is riskier than typical Indian sites."
  tip := .str "Be cautious for high-value orders; try to find written policy or confirm with customer support."

/-- Shallow embedding of the summarization endpoint's handler.  `llm`
models the chat-completion call after JSON extraction (its argument is the
policy text truncated to 24,000 characters, the only request-dependent part
of the prompt); the handler substitutes the canned answer when the text is
absent, empty, or trims to fewer than 200 characters
(`!policyText || policyText.trim().length < 200`). -/
def summarizeHandler (llm : String → Json) (method : String)
    (policyText domain : Option String) : Nat × Option SummaryResponse :=
  if method ≠ "POST" then (405, none)
  else
    match policyText with
    | none => (200, some (fallbackResponse (jsOrDefault domain "Unknown")))
    | some t =>
      if t = "" ∨ (jsTrim t).length < 200 then
        (200, some (fallbackResponse (jsOrDefault domain "Unknown")))
      else (200, some (buildResponse (llm (jsSlice 24000 t)) domain))

/-! Concrete fixture worlds used by counterexamples and witnesses. -/

/-- Home page of the `wearcomet.com` fixture: no keyword-matching anchor. -/
def cometHome : Html :=
  ⟨[⟨"About us", "/about"⟩], [(NodeKind.content, "Welcome to Comet store")]⟩

/-- A 600-character policy page body. -/
def policy600 : String :=
  String.mk (List.replicate 600 'p')

/-- Policy page served at `/policies/refund-policy` in the fixture. -/
def cometPolicyPage : Html :=
  ⟨[], [(NodeKind.content, policy600)]⟩

/-- Fixture fetcher for the `wearcomet.com` scenario: the home page has no
keyword anchor while the conventional path serves a 600-character policy. -/
def cometFetch : String → Option Html := fun s =>
  if s = "https://wearcomet.com" then some cometHome
  else if s = "https://wearcomet.com/policies/refund-policy" then some cometPolicyPage
  else none

/-- Home page of the `store.example` fixture: one keyword anchor. -/
def storeHome : Html :=
  ⟨[⟨"Refund policy", "/refund"⟩], [(NodeKind.content, "General store information")]⟩

/-- Candidate page whose body text cleans to the empty string. -/
def storeThinPage : Html :=
  ⟨[], [(NodeKind.content, " ")]⟩

/-- Fixture fetcher where the only candidate yields empty cleaned text. -/
def storeFetch : String → Option Html := fun s =>
  if s = "https://store.example/" then some storeHome
  else if s = "https://store.example/refund" then some storeThinPage
  else none

/-- Home page of the `shop.example` fixture: two keyword anchors. -/
def shopHome : Html :=
  ⟨[⟨"Returns", "/a"⟩, ⟨"Refund", "/b"⟩], [(NodeKind.content, "Home page")]⟩

/-- First candidate page: cleans to the empty string. -/
def shopEmptyPage : Html :=
  ⟨[], [(NodeKind.content, "  ")]⟩

/-- Second candidate page: non-empty policy body. -/
def shopPolicyPage : Html :=
  ⟨[], [(NodeKind.content, "Policy body text")]⟩

/-- Fixture fetcher where the first candidate is empty and the second one
carries the policy text. -/
def shopFetch : String → Option Html := fun s =>
  if s = "https://shop.example/p" then some shopHome
  else if s = "https://shop.example/a" then some shopEmptyPage
  else if s = "https://shop.example/b" then some shopPolicyPage
  else none

/-- A policy text of exactly 200 non-whitespace characters, long enough to
pass the summarization endpoint's minimum-length gate. -/
def longPolicyText : String :=
  String.mk (List.replicate 200 'a')

/-- A parsed model reply carrying a numeric `brand` field. -/
def numericBrandReply : Json :=
  .obj [("brand", .num 42)]

/-- A parsed model reply exercising the sanitizer: string brand, four
string conditions, and an out-of-range risk level. -/
def sanitizedReply : Json :=
  .obj [("brand", .str "Acme"),
        ("conditions", .arr [.str "a", .str "b", .str "c", .str "d"]),
        ("riskLevel", .str "purple")]

/-- Is the value a non-empty JSON string? -/
def isNonEmptyStr (j : Json) : Bool :=
  match j with
  | .str s => s != ""
  | _ => false

/-- Is the value a string, or else falsy (so that the sanitizer replaces
it by its default)?  Truthy non-strings are exactly the values the
sanitizer copies through unchanged. -/
def strOrFalsy (j : Json) : Bool :=
  match j with
  | .str _ => true
  | .null => true
  | .bool b => !b
  | .num n => n == 0
  | .arr _ => false
  | .obj _ => false

/-- Are all elements of the list JSON strings? -/
def allStr (xs : List Json) : Bool :=
  xs.all (fun j => match j with | .str _ => true | _ => false)

/-- Either the parsed `conditions` field is an array of strings, or it is
not an array at all (in which case the sanitizer substitutes its
default). -/
def condStrOk (j : Json) : Bool :=
  match j with
  | .arr xs => allStr xs
  | _ => true

/-! Shared lemmas. -/

/-- Truncation bounds the length of the result. -/
theorem jsSlice_length_le (n : Nat) (s : String) : (jsSlice n s).length ≤ n := by
  show (s.data.take n).length ≤ n
  rw [List.length_take]
  exact min_le_left _ _

/-- Unfolding of the Resolver when the fetch of the input page fails. -/
theorem extractPolicyText_fetchFail (fetch : String → Option Html) (url : String) (u : Url)
    (hp : parseUrl url = some u) (hf : fetch url = none) :
    extractPolicyText fetch url = some ⟨"", u.host⟩ := by
  unfold extractPolicyText
  rw [hp, hf]

/-- Unfolding of the Resolver when the anchor scan yields no candidate. -/
theorem extractPolicyText_zeroCandidates (fetch : String → Option Html) (url : String)
    (u : Url) (page : Html)
    (hp : parseUrl url = some u) (hf : fetch url = some page)
    (hc : collectCandidates (origin u) page.anchors = []) :
    extractPolicyText fetch url =
      some ⟨jsSlice 24000 (cleanText (strippedBody page)), u.host⟩ := by
  simp only [extractPolicyText, hp, hf, hc]
  rfl

/-- Unfolding of the Resolver when the candidate loop accepts a text. -/
theorem extractPolicyText_candidateHit (fetch : String → Option Html) (url : String)
    (u : Url) (page : Html) (txt : String)
    (hp : parseUrl url = some u) (hf : fetch url = some page)
    (hc : collectCandidates (origin u) page.anchors ≠ [])
    (htc : tryCandidates fetch (collectCandidates (origin u) page.anchors) = some txt) :
    extractPolicyText fetch url = some ⟨jsSlice 24000 txt, u.host⟩ := by
  simp only [extractPolicyText, hp, hf, htc]
  rw [if_neg (fun h => hc (List.length_eq_zero.mp h))]

/-- Unfolding of the Resolver when candidates exist but none is accepted:
the original page is fetched again and its cleaned text returned. -/
theorem extractPolicyText_fallbackOriginal (fetch : String → Option Html) (url : String)
    (u : Url) (page : Html)
    (hp : parseUrl url = some u) (hf : fetch url = some page)
    (hc : collectCandidates (origin u) page.anchors ≠ [])
    (htc : tryCandidates fetch (collectCandidates (origin u) page.anchors) = none) :
    extractPolicyText fetch url =
      some ⟨jsSlice 24000 (cleanText (strippedBody page)), u.host⟩ := by
  simp only [extractPolicyText, hp, hf, htc]
  rw [if_neg (fun h => hc (List.length_eq_zero.mp h))]

/-! Claim theorems. -/

/-- C1: for every input URL that parses, the Resolver returns a value (with
the hostname derived from the input URL) for every behaviour of the fetch
dependency — fetch failures are caught internally — and when every fetch
attempt fails the result is `{text := "", domain := hostname}`. -/
theorem resolver_never_raises_and_allfail_empty (fetch : String → Option Html)
    (url : String) (u : Url) (hp : parseUrl url = some u) :
    (∃ r, extractPolicyText fetch url = some r ∧ r.domain = u.host) ∧
    ((∀ x, fetch x = none) → extractPolicyText fetch url = some ⟨"", u.host⟩) := by
  constructor
  · cases hf : fetch url with
    | none => exact ⟨_, extractPolicyText_fetchFail fetch url u hp hf, rfl⟩
    | some page =>
      by_cases hc : collectCandidates (origin u) page.anchors = []
      · exact ⟨_, extractPolicyText_zeroCandidates fetch url u page hp hf hc, rfl⟩
      · cases htc : tryCandidates fetch (collectCandidates (origin u) page.anchors) with
        | some txt => exact ⟨_, extractPolicyText_candidateHit fetch url u page txt hp hf hc htc, rfl⟩
        | none => exact ⟨_, extractPolicyText_fallbackOriginal fetch url u page hp hf hc htc, rfl⟩
  · intro hall
    exact extractPolicyText_fetchFail fetch url u hp (hall url)

/-- C1 witness: a concrete URL with an always-failing fetch yields empty
text and the derived hostname. -/
theorem resolver_never_raises_and_allfail_empty_witness :
    extractPolicyText (fun _ => none) "https://example.com/p" = some ⟨"", "example.com"⟩ :=
  (resolver_never_raises_and_allfail_empty (fun _ => none) "https://example.com/p"
    ⟨"https", "example.com", "/p"⟩ (by decide)).2 (fun _ => rfl)

/-- C5: when the anchor scan of the fetched page yields zero candidates,
the Resolver returns the original page's body text with
script/style/noscript nodes stripped, whitespace collapsed, trimmed, and
truncated to at most 24,000 characters. -/
theorem zero_candidates_return_cleaned_page (fetch : String → Option Html)
    (url : String) (u : Url) (page : Html)
    (hp : parseUrl url = some u) (hf : fetch url = some page)
    (hc : collectCandidates (origin u) page.anchors = []) :
    extractPolicyText fetch url =
      some ⟨jsSlice 24000 (cleanText (strippedBody page)), u.host⟩ ∧
    (jsSlice 24000 (cleanText (strippedBody page))).length ≤ 24000 :=
  ⟨extractPolicyText_zeroCandidates fetch url u page hp hf hc, jsSlice_length_le _ _⟩

/-- C5 witness: in the comet fixture the home page has no keyword anchor
and the Resolver returns its cleaned body text. -/
theorem zero_candidates_return_cleaned_page_witness :
    extractPolicyText cometFetch "https://wearcomet.com" =
      some ⟨"Welcome to Comet store", "wearcomet.com"⟩ := by
  have h := zero_candidates_return_cleaned_page cometFetch "https://wearcomet.com"
    ⟨"https", "wearcomet.com", ""⟩ cometHome (by decide) (by rfl) (by decide)
  rw [h.1]
  decide

/-- C9: on every return path of the Resolver, the text field of the result
is at most 24,000 characters long. -/
theorem resolver_text_bounded (fetch : String → Option Html) (url : String)
    (r : ExtractResult) (h : extractPolicyText fetch url = some r) :
    r.text.length ≤ 24000 := by
  cases hp : parseUrl url with
  | none =>
    unfold extractPolicyText at h
    rw [hp] at h
    exact absurd h (by simp)
  | some u =>
    cases hf : fetch url with
    | none =>
      rw [extractPolicyText_fetchFail fetch url u hp hf] at h
      injection h with h1
      rw [← h1]
      exact Nat.zero_le _
    | some page =>
      by_cases hc : collectCandidates (origin u) page.anchors = []
      · rw [extractPolicyText_zeroCandidates fetch url u page hp hf hc] at h
        injection h with h1
        rw [← h1]
        exact jsSlice_length_le _ _
      · cases htc : tryCandidates fetch (collectCandidates (origin u) page.anchors) with
        | some txt =>
          rw [extractPolicyText_candidateHit fetch url u page txt hp hf hc htc] at h
          injection h with h1
          rw [← h1]
          exact jsSlice_length_le _ _
        | none =>
          rw [extractPolicyText_fallbackOriginal fetch url u page hp hf hc htc] at h
          injection h with h1
          rw [← h1]
          exact jsSlice_length_le _ _

/-- C9 witness: the bound instantiated on the comet fixture's result. -/
theorem resolver_text_bounded_witness :
    (ExtractResult.mk "Welcome to Comet store" "wearcomet.com").text.length ≤ 24000 :=
  resolver_text_bounded cometFetch "https://wearcomet.com"
    ⟨"Welcome to Comet store", "wearcomet.com"⟩ (by decide)

/-- C4: candidates are tried in discovery order and the first one whose
cleaned text has positive length wins; in particular when the first
candidate's cleaned text is empty and the second candidate's is non-empty,
the second candidate's text, truncated to 24,000 characters, is
returned. -/
theorem second_candidate_accepted (fetch : String → Option Html) (url : String)
    (u : Url) (page : Html) (c1 c2 : String) (rest : List String) (p1 p2 : Html)
    (hp : parseUrl url = some u) (hf : fetch url = some page)
    (hcs : collectCandidates (origin u) page.anchors = c1 :: c2 :: rest)
    (h1 : fetch c1 = some p1) (he : cleanText (strippedBody p1) = "")
    (h2 : fetch c2 = some p2) (hne : 0 < (cleanText (strippedBody p2)).length) :
    extractPolicyText fetch url =
      some ⟨jsSlice 24000 (cleanText (strippedBody p2)), u.host⟩ := by
  have htc : tryCandidates fetch (collectCandidates (origin u) page.anchors) =
      some (cleanText (strippedBody p2)) := by
    rw [hcs]
    simp only [tryCandidates, h1, h2, he]
    rw [if_neg (by decide), if_pos hne]
  exact extractPolicyText_candidateHit fetch url u page _ hp hf
    (by rw [hcs]; exact List.cons_ne_nil _ _) htc

/-- C4 witness: in the shop fixture the first candidate cleans to the empty
string and the second candidate's body is returned. -/
theorem second_candidate_accepted_witness :
    extractPolicyText shopFetch "https://shop.example/p" =
      some ⟨"Policy body text", "shop.example"⟩ := by
  have h := second_candidate_accepted shopFetch "https://shop.example/p"
    ⟨"https", "shop.example", "/p"⟩ shopHome
    "https://shop.example/a" "https://shop.example/b" [] shopEmptyPage shopPolicyPage
    (by decide) (by rfl) (by decide) (by rfl) (by decide) (by rfl) (by decide)
  rw [h]
  decide

/-- C3 counterexample: in the store fixture exactly one candidate is
discovered, its cleaned text is empty (so no candidate passes the
threshold), yet the Resolver returns the original page's non-empty cleaned
text rather than the first candidate's raw cleaned text. -/
theorem first_candidate_fallback_counterexample :
    extractPolicyText storeFetch "https://store.example/" =
      some ⟨"General store information", "store.example"⟩ ∧
    collectCandidates "https://store.example" storeHome.anchors =
      ["https://store.example/refund"] ∧
    storeFetch "https://store.example/refund" = some storeThinPage ∧
    cleanText (strippedBody storeThinPage) = "" ∧
    "General store information" ≠ "" :=
  ⟨by decide, by decide, rfl, by decide, by decide⟩

/-- C3 amended: if at least one candidate was discovered but no candidate
is accepted by the loop, the Resolver re-fetches the original page and
returns its cleaned text truncated to 24,000 characters (not the first
candidate's text). -/
theorem no_candidate_passes_refetches_original (fetch : String → Option Html)
    (url : String) (u : Url) (page : Html)
    (hp : parseUrl url = some u) (hf : fetch url = some page)
    (hc : collectCandidates (origin u) page.anchors ≠ [])
    (htc : tryCandidates fetch (collectCandidates (origin u) page.anchors) = none) :
    extractPolicyText fetch url =
      some ⟨jsSlice 24000 (cleanText (strippedBody page)), u.host⟩ :=
  extractPolicyText_fallbackOriginal fetch url u page hp hf hc htc

/-- C3 amended witness: the store fixture instantiates the fallback. -/
theorem no_candidate_passes_refetches_original_witness :
    extractPolicyText storeFetch "https://store.example/" =
      some ⟨jsSlice 24000 (cleanText (strippedBody storeHome)), "store.example"⟩ :=
  no_candidate_passes_refetches_original storeFetch "https://store.example/"
    ⟨"https", "store.example", "/"⟩ storeHome
    (by decide) (by rfl) (by decide) (by decide)

set_option maxRecDepth 10000 in
/-- C2 counterexample: for input `wearcomet.com` whose page has no
keyword-matching anchor, even though `/policies/refund-policy` serves a
600-character policy page, the Resolver discovers zero candidates and
returns the original page's cleaned body, not the policy page's body:
no conventional storefront path is ever probed. -/
theorem conventional_paths_not_probed_counterexample :
    extractPolicyText cometFetch (normalizeUrl "wearcomet.com") =
      some ⟨"Welcome to Comet store", "wearcomet.com"⟩ ∧
    cometFetch "https://wearcomet.com/policies/refund-policy" = some cometPolicyPage ∧
    (cleanText (strippedBody cometPolicyPage)).length = 600 ∧
    "Welcome to Comet store" ≠ cleanText (strippedBody cometPolicyPage) ∧
    collectCandidates "https://wearcomet.com" cometHome.anchors = [] :=
  ⟨by decide, rfl, by decide, by decide, by decide⟩

/-- C2 amended: the Resolver appends no conventional policy paths; for
input `wearcomet.com` whose page contains no keyword-matching anchor the
result is the original page's cleaned body with domain `wearcomet.com`,
whatever document the conventional path `/policies/refund-policy` would
serve. -/
theorem no_conventional_path_probing (p : Html) :
    extractPolicyText
      (fun s => if s = "https://wearcomet.com" then some cometHome
        else if s = "https://wearcomet.com/policies/refund-policy" then some p
        else none)
      (normalizeUrl "wearcomet.com") =
      some ⟨"Welcome to Comet store", "wearcomet.com"⟩ := rfl

/-- C2 amended witness: instantiated at the 600-character policy page. -/
theorem no_conventional_path_probing_witness :
    extractPolicyText
      (fun s => if s = "https://wearcomet.com" then some cometHome
        else if s = "https://wearcomet.com/policies/refund-policy" then some cometPolicyPage
        else none)
      (normalizeUrl "wearcomet.com") =
      some ⟨"Welcome to Comet store", "wearcomet.com"⟩ :=
  no_conventional_path_probing cometPolicyPage

/-- C6: an input URL lacking an http/https scheme is treated as if
`https://` were prepended, and the inputs `example.com` and
`https://example.com` produce identical resolution results for every fetch
behaviour. -/
theorem scheme_prepended_when_missing :
    (∀ raw : String, strStartsWith (jsTrim raw) "http://" = false →
        strStartsWith (jsTrim raw) "https://" = false →
        normalizeUrl raw = "https://" ++ jsTrim raw) ∧
    normalizeUrl "example.com" = normalizeUrl "https://example.com" ∧
    ∀ fetch : String → Option Html,
      extractPolicyText fetch (normalizeUrl "example.com") =
        extractPolicyText fetch (normalizeUrl "https://example.com") := by
  refine ⟨?_, by decide, ?_⟩
  · intro raw hh hhs
    unfold normalizeUrl
    rw [hh, hhs]
    rfl
  · intro fetch
    have e : normalizeUrl "example.com" = normalizeUrl "https://example.com" := by decide
    rw [e]

/-- C6 witness: a scheme-less input gets `https://` prepended. -/
theorem scheme_prepended_when_missing_witness :
    normalizeUrl "example.com" = "https://" ++ jsTrim "example.com" :=
  scheme_prepended_when_missing.1 "example.com" (by decide) (by decide)

/-- The accumulation loop only ever appends: its result is the accumulator
followed by a subsequence of the anchor-derived URLs. -/
theorem collectGo_append_sublist (base : String) :
    ∀ (l : List Anchor) (acc : List String),
      ∃ t, collectGo base acc l = acc ++ t ∧ List.Sublist t (l.filterMap (anchorCandidate base)) := by
  intro l
  induction l with
  | nil => exact fun acc => ⟨[], by simp [collectGo], List.nil_sublist _⟩
  | cons a rest ih =>
    intro acc
    cases hca : anchorCandidate base a with
    | none =>
      obtain ⟨t, h1, h2⟩ := ih acc
      refine ⟨t, ?_, ?_⟩
      · simp only [collectGo, hca]
        exact h1
      · rw [List.filterMap_cons_none hca]
        exact h2
    | some abs =>
      by_cases hmem : abs ∈ acc
      · obtain ⟨t, h1, h2⟩ := ih acc
        refine ⟨t, ?_, ?_⟩
        · simp only [collectGo, hca, if_pos hmem]
          exact h1
        · rw [List.filterMap_cons_some hca]
          exact List.Sublist.cons _ h2
      · obtain ⟨t, h1, h2⟩ := ih (acc ++ [abs])
        refine ⟨abs :: t, ?_, ?_⟩
        · simp only [collectGo, hca, if_neg hmem]
          rw [h1, List.append_assoc]
          rfl
        · rw [List.filterMap_cons_some hca]
          exact List.Sublist.cons₂ _ h2

/-- The accumulation loop preserves freedom from duplicates. -/
theorem collectGo_nodup (base : String) :
    ∀ (l : List Anchor) (acc : List String), acc.Nodup → (collectGo base acc l).Nodup := by
  intro l
  induction l with
  | nil => exact fun acc h => by simpa [collectGo] using h
  | cons a rest ih =>
    intro acc h
    cases hca : anchorCandidate base a with
    | none =>
      simp only [collectGo, hca]
      exact ih acc h
    | some abs =>
      by_cases hmem : abs ∈ acc
      · simp only [collectGo, hca, if_pos hmem]
        exact ih acc h
      · simp only [collectGo, hca, if_neg hmem]
        refine ih (acc ++ [abs]) ?_
        rw [List.nodup_append]
        refine ⟨h, List.nodup_singleton _, ?_⟩
        intro x hx hx2
        rw [List.mem_singleton] at hx2
        subst hx2
        exact hmem hx

/-- Membership in the accumulation loop's result. -/
theorem collectGo_mem (base : String) :
    ∀ (l : List Anchor) (acc : List String) (x : String),
      x ∈ collectGo base acc l ↔ x ∈ acc ∨ x ∈ l.filterMap (anchorCandidate base) := by
  intro l
  induction l with
  | nil => intro acc x; simp [collectGo]
  | cons a rest ih =>
    intro acc x
    cases hca : anchorCandidate base a with
    | none =>
      simp only [collectGo, hca]
      rw [ih acc x, List.filterMap_cons_none hca]
    | some abs =>
      by_cases hmem : abs ∈ acc
      · simp only [collectGo, hca, if_pos hmem]
        rw [ih acc x, List.filterMap_cons_some hca]
        constructor
        · rintro (h | h)
          · exact Or.inl h
          · exact Or.inr (List.mem_cons_of_mem _ h)
        · rintro (h | h)
          · exact Or.inl h
          · rcases List.mem_cons.mp h with h1 | h1
            · subst h1
              exact Or.inl hmem
            · exact Or.inr h1
      · simp only [collectGo, hca, if_neg hmem]
        rw [ih (acc ++ [abs]) x, List.filterMap_cons_some hca]
        simp only [List.mem_append, List.mem_singleton, List.mem_cons]
        tauto

/-- C8: the candidate list is de-duplicated by exact string equality and
preserves discovery order (it is a subsequence of the anchor-derived URL
sequence with exactly its members), and a page with two anchors resolving
to the same absolute URL yields exactly one candidate.  The source builds
candidates only from anchors, so anchor-discovered links trivially precede
any probed conventional path (there are none). -/
theorem candidate_list_dedup_ordered :
    (∀ (base : String) (anchors : List Anchor), (collectCandidates base anchors).Nodup) ∧
    (∀ (base : String) (anchors : List Anchor),
      List.Sublist (collectCandidates base anchors) (anchors.filterMap (anchorCandidate base))) ∧
    (∀ (base : String) (anchors : List Anchor) (x : String),
      x ∈ collectCandidates base anchors ↔ x ∈ anchors.filterMap (anchorCandidate base)) ∧
    collectCandidates "https://dup.example"
      [⟨"Return policy", "/returns"⟩, ⟨"Our returns", "/returns"⟩] =
      ["https://dup.example/returns"] := by
  refine ⟨?_, ?_, ?_, by decide⟩
  · intro base anchors
    exact collectGo_nodup base anchors [] List.nodup_nil
  · intro base anchors
    obtain ⟨t, h1, h2⟩ := collectGo_append_sublist base anchors []
    show List.Sublist (collectGo base [] anchors) _
    rw [h1]
    exact h2
  · intro base anchors x
    have h := collectGo_mem base anchors [] x
    simpa [collectCandidates] using h

/-- C8 witness: the two-anchor fixture's candidate list has no
duplicates. -/
theorem candidate_list_dedup_ordered_witness :
    (collectCandidates "https://dup.example"
      [⟨"Return policy", "/returns"⟩, ⟨"Our returns", "/returns"⟩]).Nodup :=
  candidate_list_dedup_ordered.1 "https://dup.example"
    [⟨"Return policy", "/returns"⟩, ⟨"Our returns", "/returns"⟩]

/-- C7: when the policy text is absent, empty, or trims below 200
characters, the summarization endpoint answers HTTP 200 with the canned
low-confidence response (brand the supplied domain or `Unknown`, risk
level `red`) and the language model is not invoked: the result is the same
for every model behaviour. -/
theorem short_text_canned_fallback (llm llm2 : String → Json) (pt domain : Option String)
    (h : pt = none ∨ ∃ t, pt = some t ∧ (jsTrim t).length < 200) :
    summarizeHandler llm "POST" pt domain =
      (200, some (fallbackResponse (jsOrDefault domain "Unknown"))) ∧
    (fallbackResponse (jsOrDefault domain "Unknown")).riskLevel = Json.str "red" ∧
    (fallbackResponse (jsOrDefault domain "Unknown")).brand =
      Json.str (jsOrDefault domain "Unknown") ∧
    summarizeHandler llm "POST" pt domain = summarizeHandler llm2 "POST" pt domain := by
  have key : ∀ f : String → Json, summarizeHandler f "POST" pt domain =
      (200, some (fallbackResponse (jsOrDefault domain "Unknown"))) := by
    intro f
    rcases h with h | ⟨t, hpt, ht⟩
    · subst h
      rfl
    · subst hpt
      unfold summarizeHandler
      rw [if_neg (fun hne => hne rfl)]
      show (if t = "" ∨ (jsTrim t).length < 200 then
          ((200 : Nat), some (fallbackResponse (jsOrDefault domain "Unknown")))
        else ((200 : Nat), some (buildResponse (f (jsSlice 24000 t)) domain))) = _
      rw [if_pos (Or.inr ht)]
  refine ⟨key llm, rfl, ?_, by rw [key llm, key llm2]⟩
  cases domain with
  | none => rfl
  | some s =>
    by_cases hs : s = ""
    · subst hs
      rfl
    · simp only [jsOrDefault, fallbackResponse, if_neg hs]

/-- C7 witness: a 5-character policy text with a supplied domain yields
the canned fallback with that domain as brand, for a concrete model. -/
theorem short_text_canned_fallback_witness :
    summarizeHandler (fun _ => Json.null) "POST" (some "short") (some "brand.example") =
      (200, some (fallbackResponse "brand.example")) := by
  have h := short_text_canned_fallback (fun _ => Json.null) (fun _ => Json.str "x")
    (some "short") (some "brand.example") (Or.inr ⟨"short", rfl, by decide⟩)
  have e : jsOrDefault (some "brand.example") "Unknown" = "brand.example" := by decide
  rw [e] at h
  exact h.1

/-- The JS `||` keeps a non-empty string when the left side is a string or
falsy and the default is a non-empty string. -/
theorem jsOr_nonEmptyStr (j d : Json) (hj : strOrFalsy j = true)
    (hd : isNonEmptyStr d = true) : isNonEmptyStr (jsOr j d) = true := by
  cases j with
  | null => simpa [jsOr, truthy] using hd
  | bool b =>
    cases b with
    | false => simpa [jsOr, truthy] using hd
    | true => simp [strOrFalsy] at hj
  | num n =>
    by_cases hn : n = 0
    · subst hn
      simpa [jsOr, truthy] using hd
    · simp [strOrFalsy, hn] at hj
  | str s =>
    by_cases hs : s = ""
    · subst hs
      simpa [jsOr, truthy] using hd
    · simp [jsOr, truthy, hs, isNonEmptyStr]
  | arr xs => simp [strOrFalsy] at hj
  | obj kvs => simp [strOrFalsy] at hj

/-- The brand default chain `domain || "Unknown"` always yields a
non-empty string. -/
theorem brandDefault_nonEmpty (domain : Option String) :
    isNonEmptyStr (jsOr (optJson domain) (Json.str "Unknown")) = true := by
  cases domain with
  | none => decide
  | some s =>
    by_cases hs : s = ""
    · subst hs
      decide
    · exact jsOr_nonEmptyStr _ _ (by simp [optJson, strOrFalsy]) (by decide)

set_option maxRecDepth 10000 in
/-- C10 counterexample: when the model's parsed reply carries a truthy
non-string `brand` (the number 42), the endpoint still answers HTTP 200
but the response's brand field is that number, not a (non-empty)
string. -/
theorem sanitizer_passthrough_counterexample :
    summarizeHandler (fun _ => numericBrandReply) "POST" (some longPolicyText) none =
      (200, some (buildResponse numericBrandReply none)) ∧
    (buildResponse numericBrandReply none).brand = Json.num 42 ∧
    isNonEmptyStr (buildResponse numericBrandReply none).brand = false := by
  refine ⟨?_, rfl, rfl⟩
  rfl

/-- C10 amended: for every parsed model reply and domain — hostile replies
included — the sanitized response's risk level is exactly one of
`green`/`yellow`/`red` (defaulting to `yellow`) and conditions is a
non-empty array of at most three elements; and, provided every
model-supplied field is a string or falsy (and `conditions` an array of
strings when it is an array), every other field is additionally a
non-empty string and the conditions array holds only strings. -/
theorem sanitizer_wellformed (parsed : Json) (domain : Option String) :
    ((buildResponse parsed domain).riskLevel = Json.str "green" ∨
      (buildResponse parsed domain).riskLevel = Json.str "yellow" ∨
      (buildResponse parsed domain).riskLevel = Json.str "red") ∧
    (∃ xs, (buildResponse parsed domain).conditions = Json.arr xs ∧
      0 < xs.length ∧ xs.length ≤ 3) ∧
    ((strOrFalsy (jGet parsed "brand") = true ∧
      strOrFalsy (jGet parsed "category") = true ∧
      strOrFalsy (jGet parsed "returnWindow") = true ∧
      strOrFalsy (jGet parsed "refundType") = true ∧
      strOrFalsy (jGet parsed "returnMethod") = true ∧
      strOrFalsy (jGet parsed "costs") = true ∧
      strOrFalsy (jGet parsed "riskScore") = true ∧
      strOrFalsy (jGet parsed "benchmark") = true ∧
      strOrFalsy (jGet parsed "tip") = true ∧
      condStrOk (jGet parsed "conditions") = true) →
      (isNonEmptyStr (buildResponse parsed domain).brand = true ∧
       isNonEmptyStr (buildResponse parsed domain).category = true ∧
       isNonEmptyStr (buildResponse parsed domain).returnWindow = true ∧
       isNonEmptyStr (buildResponse parsed domain).refundType = true ∧
       isNonEmptyStr (buildResponse parsed domain).returnMethod = true ∧
       isNonEmptyStr (buildResponse parsed domain).costs = true ∧
       isNonEmptyStr (buildResponse parsed domain).riskScore = true ∧
       isNonEmptyStr (buildResponse parsed domain).benchmark = true ∧
       isNonEmptyStr (buildResponse parsed domain).tip = true ∧
       ∀ xs, (buildResponse parsed domain).conditions = Json.arr xs →
         allStr xs = true)) := by
  refine ⟨?_, ?_, ?_⟩
  · simp only [buildResponse]
    cases hr : jGet parsed "riskLevel" with
    | str s =>
      by_cases h : s = "green" ∨ s = "yellow" ∨ s = "red"
      · rcases h with h | h | h <;> subst h
        · exact Or.inl rfl
        · exact Or.inr (Or.inl rfl)
        · exact Or.inr (Or.inr rfl)
      · refine Or.inr (Or.inl ?_)
        show (if s = "green" ∨ s = "yellow" ∨ s = "red" then Json.str s
          else Json.str "yellow") = Json.str "yellow"
        rw [if_neg h]
    | null => exact Or.inr (Or.inl rfl)
    | bool b => exact Or.inr (Or.inl rfl)
    | num n => exact Or.inr (Or.inl rfl)
    | arr xs => exact Or.inr (Or.inl rfl)
    | obj kvs => exact Or.inr (Or.inl rfl)
  · simp only [buildResponse]
    cases hcnd : jGet parsed "conditions" with
    | arr xs =>
      by_cases hl : 0 < xs.length
      · refine ⟨xs.take 3, ?_, ?_, ?_⟩
        · show (if 0 < xs.length then Json.arr (xs.take 3) else defaultConditions) =
            Json.arr (xs.take 3)
          rw [if_pos hl]
        · rw [List.length_take]
          exact lt_min (by norm_num) hl
        · rw [List.length_take]
          exact min_le_left _ _
      · refine ⟨[.str "Details not clearly mentioned in policy."], ?_, by decide, by decide⟩
        show (if 0 < xs.length then Json.arr (xs.take 3) else defaultConditions) =
          Json.arr [.str "Details not clearly mentioned in policy."]
        rw [if_neg hl]
        rfl
    | null => exact ⟨[.str "Details not clearly mentioned in policy."], rfl, by decide, by decide⟩
    | bool b => exact ⟨[.str "Details not clearly mentioned in policy."], rfl, by decide, by decide⟩
    | num n => exact ⟨[.str "Details not clearly mentioned in policy."], rfl, by decide, by decide⟩
    | str s => exact ⟨[.str "Details not clearly mentioned in policy."], rfl, by decide, by decide⟩
    | obj kvs => exact ⟨[.str "Details not clearly mentioned in policy."], rfl, by decide, by decide⟩
  · rintro ⟨hb, hcat, hrw, hrt, hrm, hco, hrs, hbe, hti, hcond⟩
    refine ⟨?_, ?_, ?_, ?_, ?_, ?_, ?_, ?_, ?_, ?_⟩
    · simp only [buildResponse]
      exact jsOr_nonEmptyStr _ _ hb (brandDefault_nonEmpty domain)
    · simp only [buildResponse]
      exact jsOr_nonEmptyStr _ _ hcat (by decide)
    · simp only [buildResponse]
      exact jsOr_nonEmptyStr _ _ hrw (by decide)
    · simp only [buildResponse]
      exact jsOr_nonEmptyStr _ _ hrt (by decide)
    · simp only [buildResponse]
      exact jsOr_nonEmptyStr _ _ hrm (by decide)
    · simp only [buildResponse]
      exact jsOr_nonEmptyStr _ _ hco (by decide)
    · simp only [buildResponse]
      exact jsOr_nonEmptyStr _ _ hrs (by decide)
    · simp only [buildResponse]
      exact jsOr_nonEmptyStr _ _ hbe (by decide)
    · simp only [buildResponse]
      exact jsOr_nonEmptyStr _ _ hti (by decide)
    · intro xs hxs
      simp only [buildResponse] at hxs
      cases hcnd : jGet parsed "conditions" with
      | arr ys =>
        rw [hcnd] at hxs hcond
        by_cases hl : 0 < ys.length
        · rw [show (match Json.arr ys with
              | Json.arr zs => if 0 < zs.length then Json.arr (zs.take 3) else defaultConditions
              | _ => defaultConditions) =
              (if 0 < ys.length then Json.arr (ys.take 3) else defaultConditions) from rfl,
            if_pos hl] at hxs
          injection hxs with hxs2
          subst hxs2
          have hall : allStr ys = true := hcond
          simp only [allStr, List.all_eq_true] at hall ⊢
          intro j hj
          exact hall j (List.take_subset _ _ hj)
        · rw [show (match Json.arr ys with
              | Json.arr zs => if 0 < zs.length then Json.arr (zs.take 3) else defaultConditions
              | _ => defaultConditions) =
              (if 0 < ys.length then Json.arr (ys.take 3) else defaultConditions) from rfl,
            if_neg hl] at hxs
          injection hxs with hxs2
          subst hxs2
          decide
      | null =>
        rw [hcnd] at hxs
        injection hxs with hxs2
        subst hxs2
        decide
      | bool b =>
        rw [hcnd] at hxs
        injection hxs with hxs2
        subst hxs2
        decide
      | num n =>
        rw [hcnd] at hxs
        injection hxs with hxs2
        subst hxs2
        decide
      | str s =>
        rw [hcnd] at hxs
        injection hxs with hxs2
        subst hxs2
        decide
      | obj kvs =>
        rw [hcnd] at hxs
        injection hxs with hxs2
        subst hxs2
        decide

/-- C10 amended witness: the unconditional clause applied to the hostile
numeric-brand reply, and the conditional clause applied to a reply with a
string brand, four string conditions and an out-of-range risk level. -/
theorem sanitizer_wellformed_witness :
    ((buildResponse numericBrandReply none).riskLevel = Json.str "green" ∨
      (buildResponse numericBrandReply none).riskLevel = Json.str "yellow" ∨
      (buildResponse numericBrandReply none).riskLevel = Json.str "red") ∧
    (∃ xs, (buildResponse numericBrandReply none).conditions = Json.arr xs ∧
      0 < xs.length ∧ xs.length ≤ 3) ∧
    isNonEmptyStr (buildResponse sanitizedReply (some "acme.example")).brand = true :=
  ⟨(sanitizer_wellformed numericBrandReply none).1,
   (sanitizer_wellformed numericBrandReply none).2.1,
   ((sanitizer_wellformed sanitizedReply (some "acme.example")).2.2
     ⟨by decide, by decide, by decide, by decide, by decide, by decide, by decide,
      by decide, by decide, by decide⟩).1⟩

end ValetPe
